import Mathlib

/-!
Verification of the Inventory Ledger Engine of the Bounded Storage Management
System (Express + xlsx flat-file server, `src/server.js`).

The record store, identifier generator, record matcher, grouper and the
approve / reject / delete / update workflow are shallowly embedded as pure
Lean functions over an explicit record collection.  Cell values (which in the
source arrive from `xlsx.utils.sheet_to_json` as strings or numbers, or are
absent) are modelled by `Value`; JavaScript truthiness and stringification are
modelled explicitly.  Domain-specific line-item attributes, which the engine
carries through unmodified, are kept in an opaque association list `others`.
-/

namespace Inventory

/-- Character for a single decimal digit (`digitChar d` for `d ≤ 9`). -/
def digitChar (d : Nat) : Char :=
  match d with
  | 0 => '0' | 1 => '1' | 2 => '2' | 3 => '3' | 4 => '4'
  | 5 => '5' | 6 => '6' | 7 => '7' | 8 => '8' | _ => '9'

/-- Fuel-driven decimal rendering of a natural number (digits of `n`,
most significant first).  Any `fuel > n` is sufficient. -/
def natToDecimalAux (fuel : Nat) (n : Nat) : List Char :=
  match fuel with
  | 0 => []
  | fuel + 1 =>
    if n < 10 then [digitChar n]
    else natToDecimalAux fuel (n / 10) ++ [digitChar (n % 10)]

/-- Decimal rendering of a natural number, as produced by JavaScript
`Number.prototype.toString` on a nonnegative integer. -/
def natToDecimal (n : Nat) : List Char := natToDecimalAux (n + 1) n

/-- Decimal rendering of an integer (JavaScript `toString` on integers). -/
def intToDecimalStr (n : Int) : String :=
  if n < 0 then "-" ++ String.mk (natToDecimal n.natAbs)
  else String.mk (natToDecimal n.natAbs)

/-- Value of a digit string read left to right, as `parseInt` does on an
all-digit string (leading zeros allowed). -/
def parseDigits (cs : List Char) : Nat :=
  cs.foldl (fun a c => a * 10 + (c.toNat - 48)) 0

/-- Search for the regular expression `CMP-(\d+)` inside a character list and
return the number captured by the first match, as JavaScript
`s.match(/CMP-(\d+)/)` followed by `parseInt(match[1])` does: the search
advances one position at a time, and the digit run is maximal. -/
def findCmpNum (cs : List Char) : Option Nat :=
  match cs with
  | [] => none
  | c :: rest =>
    if c = 'C' ∧ rest.take 3 = ['M', 'P', '-'] ∧
        ((rest.drop 3).takeWhile Char.isDigit).isEmpty = false then
      some (parseDigits ((rest.drop 3).takeWhile Char.isDigit))
    else findCmpNum rest

/-- JavaScript `String.prototype.padStart(3, '0')`. -/
def padStart3 (cs : List Char) : List Char :=
  List.replicate (3 - cs.length) '0' ++ cs

/-- A scalar cell value: absent (`undefined`/`null`), a string, or a number.
Numbers are modelled as integers (every value the engine manipulates is one). -/
inductive Value where
  | vnone
  | str (s : String)
  | num (n : Int)
deriving Repr, DecidableEq

/-- JavaScript stringification `v.toString()` of a cell value. -/
def Value.toStr : Value → String
  | .vnone => ""
  | .str s => s
  | .num n => intToDecimalStr n

/-- JavaScript truthiness of a cell value: absent values, the empty string and
the number 0 are falsy. -/
def Value.truthy : Value → Bool
  | .vnone => false
  | .str s => if s = "" then false else true
  | .num n => if n = 0 then false else true

/-- One inventory record (one spreadsheet row).  The fields the workflow
engine reads or writes are explicit; every other field (part number,
quantities, manufacturer, attachment path, ...) is carried through unmodified
in `others`. -/
structure Record where
  componentId : Value := .vnone
  issueNo : Value := .vnone
  storageNo : Value := .vnone
  status : Value := .vnone
  approvedBy : Value := .vnone
  approvalDate : Value := .vnone
  approvalSignature : Value := .vnone
  rejectionReason : Value := .vnone
  rejectionDate : Value := .vnone
  others : List (String × Value) := []
deriving Repr, DecidableEq

instance : Inhabited Record := ⟨{}⟩

/-- Numeric suffix a record's `Component ID` contributes in
`generateComponentId`: the captured number when the stringified identifier
matches `CMP-(\d+)`, and 0 otherwise. -/
def idNumOf (r : Record) : Nat :=
  (findCmpNum r.componentId.toStr.data).getD 0

/-- The `existingIds` array of `generateComponentId` (`src/server.js:181`):
records with a truthy `Component ID`, each mapped to its numeric suffix. -/
def existingIdNums (data : List Record) : List Nat :=
  (data.filter (fun r => r.componentId.truthy)).map idNumOf

/-- The `maxId` computed by `generateComponentId`:
`Math.max(0, ...existingIds)`. -/
def maxSuffix (data : List Record) : Nat :=
  (existingIdNums data).foldl max 0

/-- `generateComponentId` (`src/server.js:181-191`): next identifier string
`CMP-${(maxId + 1).toString().padStart(3, '0')}`. -/
def generateComponentId (data : List Record) : String :=
  "CMP-" ++ String.mk (padStart3 (natToDecimal (maxSuffix data + 1)))

/-- The record matcher used by single-component lookup, approve, reject,
delete and update (`src/server.js:330-337` and friends): a record matches the
identifier when its stringified `Issue No`, `Storage No` or `Component ID`
(each taken only when truthy, otherwise `null`) is strictly equal to the
identifier string. -/
def recMatches (item : Record) (identifier : String) : Bool :=
  let issueNo := if item.issueNo.truthy then some item.issueNo.toStr else none
  let storageNo := if item.storageNo.truthy then some item.storageNo.toStr else none
  let componentId := if item.componentId.truthy then some item.componentId.toStr else none
  issueNo == some identifier || storageNo == some identifier || componentId == some identifier

/-- Stringified `Component ID` of a record. -/
def recIdStr (r : Record) : String := r.componentId.toStr

/-- Numeric `CMP-` suffix of an identifier string (0 when no match). -/
def cmpSuffix (s : String) : Nat := (findCmpNum s.data).getD 0

/-- Response shape of a mutating endpoint, reduced to what the claims need:
success with an affected count, 404 not-found, or 400 bad-request. -/
inductive Resp where
  | ok (count : Nat)
  | notFound
  | badRequest
deriving Repr, DecidableEq

/-- The `matchingIndices` array built by the approve and reject endpoints
(`src/server.js:528-539`): indices of all records matching the request id. -/
def matchingIndices (data : List Record) (requestId : String) : List Nat :=
  (List.range data.length).filter (fun i => recMatches (data.getD i default) requestId)

/-- The `matchingIndices.forEach(index => ...)` mutation loop: rewrite the
record at every listed index with `f`, leaving the others in place.  `i` is
the index of the head of the remaining list. -/
def updateAtIndices (f : Record → Record) (idxs : List Nat) : Nat → List Record → List Record
  | _, [] => []
  | i, r :: rest => (if i ∈ idxs then f r else r) :: updateAtIndices f idxs (i + 1) rest

/-- Field stamping done on each matched record by the approve endpoint
(`src/server.js:552-559`): `Status`, `Approved By`, `Approval Date`,
`Approval Signature`. -/
def stampApprove (approvedBy approvalDate signature : Value) (r : Record) : Record :=
  { r with status := .str "Approved", approvedBy := approvedBy,
           approvalDate := approvalDate, approvalSignature := signature }

/-- Field stamping done on each matched record by the reject endpoint
(`src/server.js:629-635`): `Status`, `Rejection Reason`, `Rejection Date`. -/
def stampReject (rejectionReason rejectionDate : Value) (r : Record) : Record :=
  { r with status := .str "Rejected", rejectionReason := rejectionReason,
           rejectionDate := rejectionDate }

/-- `POST /api/requests/approve` (`src/server.js:514-588`) as a transformer
of the persisted collection: the current date is passed in as a value.
Returns the persisted collection after the request and the response. -/
def approveEndpoint (store : List Record) (requestId : String)
    (approvedBy approvalDate signature : Value) : List Record × Resp :=
  let idxs := matchingIndices store requestId
  if idxs.length = 0 then (store, .notFound)
  else (updateAtIndices (stampApprove approvedBy approvalDate signature) idxs 0 store,
        .ok idxs.length)

/-- `POST /api/requests/reject` (`src/server.js:591-664`). -/
def rejectEndpoint (store : List Record) (requestId : String)
    (rejectionReason rejectionDate : Value) : List Record × Resp :=
  let idxs := matchingIndices store requestId
  if idxs.length = 0 then (store, .notFound)
  else (updateAtIndices (stampReject rejectionReason rejectionDate) idxs 0 store,
        .ok idxs.length)

/-- `DELETE /api/components/:identifier` (`src/server.js:667-724`): keep the
records that do not match, 404 when nothing was removed. -/
def deleteEndpoint (store : List Record) (identifier : String) : List Record × Resp :=
  let remainingData := store.filter (fun item => !(recMatches item identifier))
  let deletedCount := store.length - remainingData.length
  if deletedCount = 0 then (store, .notFound)
  else (remainingData, .ok deletedCount)

/-- The opaque per-line-item payload of a submission: the domain attributes
(part number, description, quantities, ...) that the engine copies into the
new record without interpreting them. -/
def Payload := List (String × Value)

/-- New record built per line item by `POST /api/issue`
(`src/server.js:411-435`): freshly minted `Component ID`, `Status: Pending`,
the batch `Issue No`, no `Storage No`; domain attributes in `others`. -/
def mkIssueRec (cid : String) (issueNo : Value) (p : Payload) : Record :=
  { componentId := .str cid, issueNo := issueNo, storageNo := .vnone,
    status := .str "Pending", others := p }

/-- New record built per line item by `POST /api/storage`
(`src/server.js:470-492`): freshly minted `Component ID`, `Status: Pending`,
the batch `Storage No`, no `Issue No`. -/
def mkStorageRec (cid : String) (storageNo : Value) (p : Payload) : Record :=
  { componentId := .str cid, issueNo := .vnone, storageNo := storageNo,
    status := .str "Pending", others := p }

/-- The `newItems` accumulation loop shared by submit and update: each new
item's `Component ID` is generated from the prospective collection
`[...base, ...newItems]` (`src/server.js:412`, `471`, `809`, `840`). -/
def buildItems (mk : String → Payload → Record) (base : List Record) :
    List Record → List Payload → List Record
  | acc, [] => acc
  | acc, p :: ps =>
    buildItems mk base (acc ++ [mk (generateComponentId (base ++ acc)) p]) ps

/-- Core of `POST /api/issue` (`src/server.js:380-455`): validate the batch is
nonempty, then append the new items.  Returns the persisted collection and
the list of records appended by this request. -/
def issueSubmit (store : List Record) (issueNo : Value) (components : List Payload) :
    List Record × List Record :=
  if components.isEmpty then (store, [])
  else
    let newItems := buildItems (fun cid p => mkIssueRec cid issueNo p) store [] components
    (store ++ newItems, newItems)

/-- Core of `POST /api/storage` (`src/server.js:458-511`). -/
def storageSubmit (store : List Record) (storageNo : Value) (components : List Payload) :
    List Record × List Record :=
  if components.isEmpty then (store, [])
  else
    let newItems := buildItems (fun cid p => mkStorageRec cid storageNo p) store [] components
    (store ++ newItems, newItems)

/-- Core of `PUT /api/components/:identifier` (`src/server.js:727-883`):
drop every record matching the identifier, then rebuild the batch on top of
the complement, minting ids from `[...remainingData, ...newItems]`. -/
def updateCore (mk : String → Payload → Record) (store : List Record)
    (identifier : String) (components : List Payload) : List Record × List Record :=
  let remainingData := store.filter (fun item => !(recMatches item identifier))
  let newItems := buildItems mk remainingData [] components
  (remainingData ++ newItems, newItems)

/-- The issue-form branch of the update endpoint. -/
def updateIssue (store : List Record) (identifier : String) (issueNo : Value)
    (components : List Payload) : List Record × List Record :=
  updateCore (fun cid p => mkIssueRec cid issueNo p) store identifier components

/-- The storage-form branch of the update endpoint. -/
def updateStorage (store : List Record) (identifier : String) (storageNo : Value)
    (components : List Payload) : List Record × List Record :=
  updateCore (fun cid p => mkStorageRec cid storageNo p) store identifier components

/-- JavaScript `toLowerCase` on a string (ASCII case folding). -/
def strToLower (s : String) : String := String.mk (s.data.map Char.toLower)

/-- Status filter of the pending view (`src/server.js:359`):
`item.Status && item.Status.toString().toLowerCase() === 'pending'`. -/
def statusIsPending (item : Record) : Bool :=
  item.status.truthy && (strToLower item.status.toStr == "pending")

/-- Group key of the pending view (`src/server.js:360`):
`item['Issue No'] || item['Storage No']` (JavaScript `||` yields the first
truthy operand, else the second). -/
def groupKeyVal (item : Record) : Value :=
  if item.issueNo.truthy then item.issueNo else item.storageNo

/-- Group key as an optional string: the key a record lands under in the
`groupedRequests` object, `none` when the key is falsy and the record is
skipped. -/
def groupKeyOpt (r : Record) : Option String :=
  if (groupKeyVal r).truthy then some (groupKeyVal r).toStr else none

/-- One step of the `data.forEach` loop of `GET /api/requests/pending`
(`src/server.js:358-368`): insert the item under its group key unless the key
is already present (`if (!groupedRequests[groupKey])`). -/
def pendingStep (acc : List (String × Record)) (item : Record) : List (String × Record) :=
  if statusIsPending item then
    match groupKeyOpt item with
    | some k => if (acc.lookup k).isSome then acc else acc ++ [(k, item)]
    | none => acc
  else acc

/-- The loop of `GET /api/requests/pending`, ranging over the data with the
accumulated `groupedRequests` object (insertion-ordered association list). -/
def pendingGroupsAux (acc : List (String × Record)) : List Record → List (String × Record)
  | [] => acc
  | item :: rest => pendingGroupsAux (pendingStep acc item) rest

/-- `GET /api/requests/pending` (`src/server.js:351-377`): one representative
record per pending transaction key. -/
def pendingGroups (data : List Record) : List (String × Record) :=
  pendingGroupsAux [] data

/-- `saveToExcelSync` (`src/server.js:151-178`) over an abstract file layer:
`fileRoundTrip data` stands for writing the workbook and immediately reading
it back (`none` when either step throws).  The function logs the read-back
count (`verifyData.length`) but draws no conclusion from it, returning `true`
whenever no exception occurred and `false` otherwise. -/
def saveToExcelSync (fileRoundTrip : List Record → Option (List Record))
    (data : List Record) : Bool :=
  match fileRoundTrip data with
  | some _verifyData => true
  | none => false

/-- A silently truncating file writer: whatever is written, the read-back
holds no rows.  Used to exercise the read-back verification of
`saveToExcelSync`. -/
def truncatingRoundTrip : List Record → Option (List Record) := fun _ => some []

/-- A mutating operation of the workflow engine, for reasoning about
operation sequences. -/
inductive Op where
  | submitIssue (issueNo : Value) (items : List Payload)
  | submitStorage (storageNo : Value) (items : List Payload)
  | del (identifier : String)
  | updIssue (identifier : String) (issueNo : Value) (items : List Payload)
  | updStorage (identifier : String) (storageNo : Value) (items : List Payload)

/-- Whether an operation is a submit (issue or storage). -/
def Op.isSubmit : Op → Bool
  | .submitIssue _ _ => true
  | .submitStorage _ _ => true
  | _ => false

/-- Run one operation: the resulting persisted collection together with the
`Component ID` strings minted by the operation, in minting order. -/
def runOp (data : List Record) : Op → List Record × List String
  | .submitIssue issueNo items =>
    let (d, news) := issueSubmit data issueNo items
    (d, news.map recIdStr)
  | .submitStorage storageNo items =>
    let (d, news) := storageSubmit data storageNo items
    (d, news.map recIdStr)
  | .del identifier => ((deleteEndpoint data identifier).1, [])
  | .updIssue identifier issueNo items =>
    let (d, news) := updateIssue data identifier issueNo items
    (d, news.map recIdStr)
  | .updStorage identifier storageNo items =>
    let (d, news) := updateStorage data identifier storageNo items
    (d, news.map recIdStr)

/-- Run a sequence of operations, accumulating all minted `Component ID`s. -/
def runOps (data : List Record) : List Op → List Record × List String
  | [] => (data, [])
  | op :: ops =>
    let (d1, minted1) := runOp data op
    let (d2, minted2) := runOps d1 ops
    (d2, minted1 ++ minted2)

/-- Maximum numeric suffix as the specification words it: every existing
`Component ID` matching the pattern contributes its captured number, and
every non-matching or absent identifier contributes 0; the maximum is taken
with a floor of 0. -/
def specMaxSuffix (data : List Record) : Nat :=
  (data.map (fun r =>
    match r.componentId with
    | Value.vnone => 0
    | v => (findCmpNum v.toStr.data).getD 0)).foldl max 0

/-- Record matching as claim C6 words it: a field matches exactly when its
stringification is string-equal to the identifier, and a field that is absent
or the empty string contributes no match. -/
def claimMatches (item : Record) (identifier : String) : Bool :=
  let fieldMatch := fun v : Value =>
    !(v == Value.vnone) && !(v == Value.str "") && (v.toStr == identifier)
  fieldMatch item.issueNo || fieldMatch item.storageNo || fieldMatch item.componentId

/-- All `Status` cells take one of the data-model values (or are absent). -/
def canonicalStatuses (data : List Record) : Prop :=
  ∀ r ∈ data, r.status = Value.vnone ∨ r.status = Value.str "Pending" ∨
    r.status = Value.str "Approved" ∨ r.status = Value.str "Rejected"

/-- First record of the grouping example from the specification. -/
def exRecA1 : Record := { issueNo := Value.str "A", status := Value.str "Pending" }

/-- Second record of the grouping example (same transaction key). -/
def exRecA2 : Record :=
  { issueNo := Value.str "A", status := Value.str "Pending",
    others := [("Part No", Value.str "P2")] }

/-- Third record of the grouping example (already approved). -/
def exRecB : Record := { issueNo := Value.str "B", status := Value.str "Approved" }

/-- The three-record grouping example from the specification. -/
def exampleData : List Record := [exRecA1, exRecA2, exRecB]

/-- Submit one item, delete it by `Component ID`, submit one item again. -/
def ceReuseOps : List Op :=
  [Op.submitIssue (.str "ISS-1") [[]], Op.del "CMP-001",
   Op.submitIssue (.str "ISS-2") [[]]]

/-- A record whose `Issue No` is the number 0: its stringification is "0",
and the field is neither absent nor the empty string, yet it is falsy. -/
def ceZeroRec : Record := { issueNo := Value.num 0 }

/-- A pending record with identifier CMP-001 under transaction ISS-1. -/
def wRec1 : Record :=
  { componentId := .str "CMP-001", issueNo := .str "ISS-1", status := .str "Pending" }

/-- One-record store used to exercise the not-found paths. -/
def wNoMatchStore : List Record := [wRec1]

/-- Store holding a record already in a terminal state, to exercise
re-approval and re-rejection. -/
def wTerminalStore : List Record :=
  [{ componentId := .str "CMP-001", issueNo := .str "ISS-1",
     status := .str "Approved", approvedBy := .str "adm" },
   { componentId := .str "CMP-002", issueNo := .str "ISS-2",
     status := .str "Pending" }]

/-- Store for the update-renumbering scenario: transaction ISS-1 holds the
two highest `Component ID`s, so the complement maximum (1) differs from the
pre-update maximum (3). -/
def wUpdateStore : List Record :=
  [{ componentId := .str "CMP-001", issueNo := .str "OTHER", status := .str "Pending" },
   { componentId := .str "CMP-002", issueNo := .str "ISS-1", status := .str "Pending" },
   { componentId := .str "CMP-003", issueNo := .str "ISS-1", status := .str "Pending" }]

/-- Store whose maximal numeric suffix already exceeds 999. -/
def wWideStore : List Record := [{ componentId := .str "CMP-1200" }]

/-- Two consecutive submit operations (an issue batch of two line items and a
storage batch of one). -/
def wSubmitOps : List Op :=
  [Op.submitIssue (.str "ISS-1") [[], []], Op.submitStorage (.str "STO-1") [[]]]

/-! Auxiliary lemmas about decimal rendering and suffix parsing. -/

lemma digitChar_isDigit (d : Nat) : (digitChar d).isDigit = true := by
  rcases d with _ | _ | _ | _ | _ | _ | _ | _ | _ | d <;> rfl

lemma digitChar_val (d : Nat) (h : d < 10) : (digitChar d).toNat - 48 = d := by
  interval_cases d <;> rfl

lemma natToDecimalAux_ne_nil (fuel n : Nat) (h : n < fuel) :
    natToDecimalAux fuel n ≠ [] := by
  cases fuel with
  | zero => omega
  | succ fuel =>
    unfold natToDecimalAux
    by_cases h10 : n < 10 <;> simp [h10]

lemma natToDecimalAux_digits (fuel : Nat) :
    ∀ n, n < fuel → ∀ c ∈ natToDecimalAux fuel n, c.isDigit = true := by
  induction fuel with
  | zero => omega
  | succ fuel ih =>
    intro n hn c hc
    unfold natToDecimalAux at hc
    by_cases h10 : n < 10
    · simp [h10] at hc
      subst hc
      exact digitChar_isDigit n
    · simp [h10, List.mem_append] at hc
      rcases hc with hc | hc
      · exact ih (n / 10) (by omega) c hc
      · subst hc
        exact digitChar_isDigit (n % 10)

lemma natToDecimalAux_parse (fuel : Nat) :
    ∀ n a, n < fuel →
      (natToDecimalAux fuel n).foldl (fun a c => a * 10 + (c.toNat - 48)) a
        = a * 10 ^ (natToDecimalAux fuel n).length + n := by
  induction fuel with
  | zero => omega
  | succ fuel ih =>
    intro n a hn
    unfold natToDecimalAux
    by_cases h10 : n < 10
    · simp only [h10, if_true, List.foldl_cons, List.foldl_nil, List.length_singleton]
      rw [digitChar_val n h10]
      ring
    · simp only [h10, if_false, List.foldl_append, List.length_append,
        List.foldl_cons, List.foldl_nil, List.length_singleton]
      rw [ih (n / 10) a (by omega), digitChar_val (n % 10) (by omega)]
      have hsplit : n / 10 * 10 + n % 10 = n := by omega
      calc (a * 10 ^ (natToDecimalAux fuel (n / 10)).length + n / 10) * 10 + n % 10
          = a * (10 ^ (natToDecimalAux fuel (n / 10)).length * 10)
            + (n / 10 * 10 + n % 10) := by ring
        _ = a * 10 ^ ((natToDecimalAux fuel (n / 10)).length + 1) + n := by
            rw [hsplit, pow_succ]

lemma natToDecimalAux_len_ge (fuel : Nat) :
    ∀ n k, n < fuel → 10 ^ k ≤ n → k + 1 ≤ (natToDecimalAux fuel n).length := by
  induction fuel with
  | zero => omega
  | succ fuel ih =>
    intro n k hn hk
    unfold natToDecimalAux
    by_cases h10 : n < 10
    · have hk0 : k = 0 := by
        by_contra hne
        have h1 : (10 : Nat) ^ 1 ≤ 10 ^ k :=
          Nat.pow_le_pow_right (by omega) (by omega)
        simp at h1
        omega
      simp [h10, hk0]
    · simp only [h10, if_false, List.length_append, List.length_singleton]
      cases k with
      | zero => omega
      | succ j =>
        have hj : 10 ^ j ≤ n / 10 := by
          rw [Nat.le_div_iff_mul_le (by omega)]
          calc 10 ^ j * 10 = 10 ^ (j + 1) := by rw [pow_succ]
            _ ≤ n := hk
        have := ih (n / 10) j (by omega) hj
        omega

lemma natToDecimal_ne_nil (n : Nat) : natToDecimal n ≠ [] :=
  natToDecimalAux_ne_nil (n + 1) n (by omega)

lemma natToDecimal_digits (n : Nat) : ∀ c ∈ natToDecimal n, c.isDigit = true :=
  natToDecimalAux_digits (n + 1) n (by omega)

lemma parseDigits_natToDecimal (n : Nat) : parseDigits (natToDecimal n) = n := by
  unfold parseDigits natToDecimal
  rw [natToDecimalAux_parse (n + 1) n 0 (by omega)]
  ring

lemma natToDecimal_len_ge (n k : Nat) (hk : 10 ^ k ≤ n) :
    k + 1 ≤ (natToDecimal n).length :=
  natToDecimalAux_len_ge (n + 1) n k (by omega) hk

lemma parseDigits_replicate_zero (k : Nat) (l : List Char) :
    parseDigits (List.replicate k '0' ++ l) = parseDigits l := by
  have hzero : ∀ m, (List.replicate m '0').foldl
      (fun a c => a * 10 + (c.toNat - 48)) 0 = 0 := by
    intro m
    induction m with
    | zero => rfl
    | succ m ihm => simpa [List.replicate_succ] using ihm
  unfold parseDigits
  rw [List.foldl_append, hzero]

lemma padStart3_digits (l : List Char) (hl : ∀ c ∈ l, c.isDigit = true) :
    ∀ c ∈ padStart3 l, c.isDigit = true := by
  intro c hc
  unfold padStart3 at hc
  rw [List.mem_append] at hc
  rcases hc with hc | hc
  · have := List.eq_of_mem_replicate hc
    subst this
    rfl
  · exact hl c hc

lemma padStart3_ne_nil (l : List Char) (hl : l ≠ []) : padStart3 l ≠ [] := by
  unfold padStart3
  simp [hl]

lemma padStart3_length (l : List Char) : (padStart3 l).length = max 3 l.length := by
  unfold padStart3
  simp [List.length_append, List.length_replicate]
  omega

lemma parseDigits_padStart3 (l : List Char) :
    parseDigits (padStart3 l) = parseDigits l :=
  parseDigits_replicate_zero _ l

lemma findCmpNum_exact (ds : List Char) (hne : ds ≠ [])
    (hd : ∀ c ∈ ds, c.isDigit = true) :
    findCmpNum ('C' :: 'M' :: 'P' :: '-' :: ds) = some (parseDigits ds) := by
  have htake : ds.takeWhile Char.isDigit = ds := List.takeWhile_eq_self_iff.mpr hd
  unfold findCmpNum
  rw [if_pos]
  · simp [htake]
  · refine ⟨rfl, rfl, ?_⟩
    simp [htake, List.isEmpty_iff, hne]

lemma cmpSuffix_generateComponentId (data : List Record) :
    cmpSuffix (generateComponentId data) = maxSuffix data + 1 := by
  unfold cmpSuffix generateComponentId
  have hdata : ("CMP-" ++ String.mk (padStart3 (natToDecimal (maxSuffix data + 1)))).data
      = 'C' :: 'M' :: 'P' :: '-' :: padStart3 (natToDecimal (maxSuffix data + 1)) := rfl
  rw [hdata, findCmpNum_exact _
    (padStart3_ne_nil _ (natToDecimal_ne_nil _))
    (padStart3_digits _ (natToDecimal_digits _))]
  rw [Option.getD_some, parseDigits_padStart3, parseDigits_natToDecimal]

lemma generateComponentId_ne_empty (data : List Record) :
    generateComponentId data ≠ "" := by
  intro h
  have : ("" : String).data = [] := rfl
  have hdata : (generateComponentId data).data
      = 'C' :: 'M' :: 'P' :: '-' :: padStart3 (natToDecimal (maxSuffix data + 1)) := rfl
  rw [h] at hdata
  simp at hdata

lemma generateComponentId_truthy (data : List Record) :
    (Value.str (generateComponentId data)).truthy = true := by
  unfold Value.truthy
  simp [generateComponentId_ne_empty data]

/-! Auxiliary lemmas about `maxSuffix`. -/

lemma foldl_max_shift (l : List Nat) : ∀ a : Nat, l.foldl max a = max a (l.foldl max 0) := by
  induction l with
  | nil => intro a; simp
  | cons x l ih =>
    intro a
    simp only [List.foldl_cons]
    rw [ih (max a x), ih (max 0 x)]
    rw [Nat.zero_max, Nat.max_assoc]

lemma le_foldl_max {x : Nat} {l : List Nat} (h : x ∈ l) : x ≤ l.foldl max 0 := by
  induction l with
  | nil => cases h
  | cons a l ih =>
    simp only [List.foldl_cons]
    rw [foldl_max_shift]
    rcases List.mem_cons.mp h with h | h
    · subst h
      omega
    · have := ih h
      omega

lemma existingIdNums_append (l1 l2 : List Record) :
    existingIdNums (l1 ++ l2) = existingIdNums l1 ++ existingIdNums l2 := by
  unfold existingIdNums
  rw [List.filter_append, List.map_append]

lemma maxSuffix_append (l1 l2 : List Record) :
    maxSuffix (l1 ++ l2) = max (maxSuffix l1) (maxSuffix l2) := by
  unfold maxSuffix
  rw [existingIdNums_append, List.foldl_append, foldl_max_shift]

lemma maxSuffix_singleton_truthy (r : Record) (h : r.componentId.truthy = true) :
    maxSuffix [r] = idNumOf r := by
  unfold maxSuffix existingIdNums
  simp [List.filter, h]

lemma le_maxSuffix_of_mem {r : Record} {data : List Record}
    (hmem : r ∈ data) (htr : r.componentId.truthy = true) :
    idNumOf r ≤ maxSuffix data := by
  unfold maxSuffix
  apply le_foldl_max
  unfold existingIdNums
  exact List.mem_map_of_mem idNumOf (List.mem_filter.mpr ⟨hmem, htr⟩)

lemma cmpSuffix_recIdStr (r : Record) : cmpSuffix (recIdStr r) = idNumOf r := rfl

/-- Characterization of the `newItems` loop: the batch is appended behind the
accumulator, one record per payload, with numeric suffixes continuing the
current maximum one at a time; the collection maximum advances by the batch
size. -/
lemma buildItems_spec (mk : String → Payload → Record)
    (hmk : ∀ cid p, (mk cid p).componentId = Value.str cid) (base : List Record) :
    ∀ (ps : List Payload) (acc : List Record),
      ∃ news : List Record,
        buildItems mk base acc ps = acc ++ news ∧
        news.length = ps.length ∧
        news.map idNumOf
          = (List.range ps.length).map (fun j => maxSuffix (base ++ acc) + 1 + j) ∧
        maxSuffix (base ++ (acc ++ news)) = maxSuffix (base ++ acc) + ps.length := by
  intro ps
  induction ps with
  | nil =>
    intro acc
    exact ⟨[], by simp [buildItems], by simp, by simp, by simp⟩
  | cons p ps ih =>
    intro acc
    have hcompid : (mk (generateComponentId (base ++ acc)) p).componentId
        = Value.str (generateComponentId (base ++ acc)) := hmk _ p
    have htruthy : (mk (generateComponentId (base ++ acc)) p).componentId.truthy = true := by
      rw [hcompid]
      exact generateComponentId_truthy (base ++ acc)
    have hidnum : idNumOf (mk (generateComponentId (base ++ acc)) p)
        = maxSuffix (base ++ acc) + 1 := by
      unfold idNumOf
      rw [hcompid]
      exact cmpSuffix_generateComponentId (base ++ acc)
    have hmax1 : maxSuffix (base ++ (acc ++ [mk (generateComponentId (base ++ acc)) p]))
        = maxSuffix (base ++ acc) + 1 := by
      rw [← List.append_assoc, maxSuffix_append,
        maxSuffix_singleton_truthy _ htruthy, hidnum]
      rw [Nat.max_eq_right (by omega)]
    obtain ⟨news, h1, h2, h3, h4⟩ := ih (acc ++ [mk (generateComponentId (base ++ acc)) p])
    refine ⟨mk (generateComponentId (base ++ acc)) p :: news, ?_, ?_, ?_, ?_⟩
    · show buildItems mk base
        (acc ++ [mk (generateComponentId (base ++ acc)) p]) ps = _
      rw [h1]
      simp
    · simp [h2]
    · rw [List.map_cons, hidnum, h3]
      simp only [hmax1, List.length_cons]
      rw [List.range_succ_eq_map, List.map_cons, List.map_map]
      congr 1
      apply List.map_congr_left
      intro j hj
      simp only [Function.comp_apply]
      omega
    · have hassoc : acc ++ (mk (generateComponentId (base ++ acc)) p :: news)
          = (acc ++ [mk (generateComponentId (base ++ acc)) p]) ++ news := by simp
      rw [hassoc, h4]
      simp only [hmax1, List.length_cons]
      omega

lemma buildItems_nil_acc (mk : String → Payload → Record)
    (hmk : ∀ cid p, (mk cid p).componentId = Value.str cid)
    (data : List Record) (items : List Payload) :
    (buildItems mk data [] items).map idNumOf
        = (List.range items.length).map (fun j => maxSuffix data + 1 + j) ∧
      maxSuffix (data ++ buildItems mk data [] items) = maxSuffix data + items.length := by
  obtain ⟨news, h1, _h2, h3, h4⟩ := buildItems_spec mk hmk data items []
  rw [List.nil_append] at h1
  rw [h1]
  simp only [List.append_nil, List.nil_append] at h3 h4
  exact ⟨h3, h4⟩

lemma range_map_concat (M k t : Nat) :
    (List.range k).map (fun j => M + 1 + j) ++ (List.range t).map (fun j => M + k + 1 + j)
      = (List.range (k + t)).map (fun j => M + 1 + j) := by
  rw [List.range_add, List.map_append, List.map_map]
  congr 1
  apply List.map_congr_left
  intro j _
  simp only [Function.comp_apply]
  omega

/-- Across any sequence of submit operations, the minted suffixes are the
consecutive integers continuing the starting collection's maximum, and the
maximum advances by the number of minted identifiers. -/
lemma runOps_submits (ops : List Op) :
    (∀ op ∈ ops, op.isSubmit = true) →
    ∀ data : List Record,
      ∃ t : Nat,
        (runOps data ops).2.map cmpSuffix
          = (List.range t).map (fun j => maxSuffix data + 1 + j) ∧
        maxSuffix (runOps data ops).1 = maxSuffix data + t := by
  induction ops with
  | nil =>
    intro _ data
    exact ⟨0, by simp [runOps], by simp [runOps]⟩
  | cons op ops ih =>
    intro hall data
    have hop : op.isSubmit = true := hall op (List.mem_cons_self op ops)
    have hrest : ∀ o ∈ ops, o.isSubmit = true :=
      fun o ho => hall o (List.mem_cons_of_mem op ho)
    cases op with
    | submitIssue hdr items =>
      by_cases hemp : items.isEmpty
      · have hrun1 : runOp data (Op.submitIssue hdr items) = (data, []) := by
          simp [runOp, issueSubmit, hemp]
        obtain ⟨t, hmint, hmax⟩ := ih hrest data
        refine ⟨t, ?_, ?_⟩
        · simp only [runOps, hrun1, List.nil_append]
          exact hmint
        · simp only [runOps, hrun1]
          exact hmax
      · have hemp2 : items.isEmpty = false := by simpa using hemp
        have hrun1 : runOp data (Op.submitIssue hdr items)
            = (data ++ buildItems (fun cid p => mkIssueRec cid hdr p) data [] items,
               (buildItems (fun cid p => mkIssueRec cid hdr p) data [] items).map recIdStr) := by
          simp [runOp, issueSubmit, hemp2]
        have hb := buildItems_nil_acc (fun cid p => mkIssueRec cid hdr p)
          (fun _ _ => rfl) data items
        obtain ⟨t, hmint, hmax⟩ :=
          ih hrest (data ++ buildItems (fun cid p => mkIssueRec cid hdr p) data [] items)
        refine ⟨items.length + t, ?_, ?_⟩
        · simp only [runOps, hrun1, List.map_append]
          rw [hmint, hb.2]
          have hmap : ((buildItems (fun cid p => mkIssueRec cid hdr p) data [] items).map
              recIdStr).map cmpSuffix
              = (List.range items.length).map (fun j => maxSuffix data + 1 + j) := by
            rw [List.map_map]
            have hcomp : cmpSuffix ∘ recIdStr = idNumOf := rfl
            rw [hcomp, hb.1]
          rw [hmap]
          exact range_map_concat (maxSuffix data) items.length t
        · simp only [runOps, hrun1]
          rw [hmax, hb.2]
          omega
    | submitStorage hdr items =>
      by_cases hemp : items.isEmpty
      · have hrun1 : runOp data (Op.submitStorage hdr items) = (data, []) := by
          simp [runOp, storageSubmit, hemp]
        obtain ⟨t, hmint, hmax⟩ := ih hrest data
        refine ⟨t, ?_, ?_⟩
        · simp only [runOps, hrun1, List.nil_append]
          exact hmint
        · simp only [runOps, hrun1]
          exact hmax
      · have hemp2 : items.isEmpty = false := by simpa using hemp
        have hrun1 : runOp data (Op.submitStorage hdr items)
            = (data ++ buildItems (fun cid p => mkStorageRec cid hdr p) data [] items,
               (buildItems (fun cid p => mkStorageRec cid hdr p) data [] items).map recIdStr) := by
          simp [runOp, storageSubmit, hemp2]
        have hb := buildItems_nil_acc (fun cid p => mkStorageRec cid hdr p)
          (fun _ _ => rfl) data items
        obtain ⟨t, hmint, hmax⟩ :=
          ih hrest (data ++ buildItems (fun cid p => mkStorageRec cid hdr p) data [] items)
        refine ⟨items.length + t, ?_, ?_⟩
        · simp only [runOps, hrun1, List.map_append]
          rw [hmint, hb.2]
          have hmap : ((buildItems (fun cid p => mkStorageRec cid hdr p) data [] items).map
              recIdStr).map cmpSuffix
              = (List.range items.length).map (fun j => maxSuffix data + 1 + j) := by
            rw [List.map_map]
            have hcomp : cmpSuffix ∘ recIdStr = idNumOf := rfl
            rw [hcomp, hb.1]
          rw [hmap]
          exact range_map_concat (maxSuffix data) items.length t
        · simp only [runOps, hrun1]
          rw [hmax, hb.2]
          omega
    | del identifier => simp [Op.isSubmit] at hop
    | updIssue a b c => simp [Op.isSubmit] at hop
    | updStorage a b c => simp [Op.isSubmit] at hop

/-! Characterization of the index-based mutation loop of approve/reject. -/

lemma matchingIndices_nil (requestId : String) : matchingIndices [] requestId = [] := rfl

lemma matchingIndices_cons (a : Record) (l : List Record) (requestId : String) :
    matchingIndices (a :: l) requestId
      = (if recMatches a requestId then [0] else [])
        ++ (matchingIndices l requestId).map Nat.succ := by
  unfold matchingIndices
  rw [List.length_cons, List.range_succ_eq_map, List.filter_cons]
  rw [List.filter_map]
  have hcong : (l.map (fun r => r)).length = l.length := by simp
  have hpred : ∀ i ∈ List.range l.length,
      ((fun i => recMatches ((a :: l).getD i default) requestId) ∘ Nat.succ) i
        = (fun i => recMatches (l.getD i default) requestId) i := by
    intro i _
    simp [List.getD_cons_succ]
  rw [List.filter_congr hpred]
  by_cases hm : recMatches a requestId
  · simp only [List.getD_cons_zero, hm, if_true]
    rfl
  · simp only [List.getD_cons_zero, hm, if_false]
    rfl

lemma updateAtIndices_shift (f : Record → Record) (A B : List Nat)
    (hA : ∀ a ∈ A, a = 0) :
    ∀ (l : List Record) (i : Nat),
      updateAtIndices f (A ++ B.map Nat.succ) (i + 1) l = updateAtIndices f B i l := by
  intro l
  induction l with
  | nil => intro i; rfl
  | cons r rest ih =>
    intro i
    have hmem : ((i + 1) ∈ A ++ B.map Nat.succ) ↔ i ∈ B := by
      simp only [List.mem_append, List.mem_map]
      constructor
      · rintro (hin | ⟨x, hx, hxe⟩)
        · exact absurd (hA _ hin) (by omega)
        · have hxi : x = i := by omega
          subst hxi
          exact hx
      · intro hi
        exact Or.inr ⟨i, hi, rfl⟩
    unfold updateAtIndices
    by_cases hi : i ∈ B
    · rw [if_pos (hmem.mpr hi), if_pos hi, ih (i + 1)]
    · rw [if_neg (fun hc => hi (hmem.mp hc)), if_neg hi, ih (i + 1)]

lemma updateAtIndices_eq_map (f : Record → Record) (requestId : String) :
    ∀ store : List Record,
      updateAtIndices f (matchingIndices store requestId) 0 store
        = store.map (fun r => if recMatches r requestId then f r else r) := by
  intro store
  induction store with
  | nil => rfl
  | cons a l ih =>
    rw [matchingIndices_cons]
    unfold updateAtIndices
    have hA : ∀ x ∈ (if recMatches a requestId then [0] else []), x = 0 := by
      by_cases hm : recMatches a requestId <;> simp [hm]
    rw [show (0 : Nat) + 1 = 0 + 1 from rfl]
    rw [updateAtIndices_shift f _ _ hA l 0, ih, List.map_cons]
    congr 1
    by_cases hm : recMatches a requestId
    · have h0 : 0 ∈ (if recMatches a requestId then [0] else [])
          ++ (matchingIndices l requestId).map Nat.succ := by simp [hm]
      rw [if_pos h0, if_pos hm]
    · have h0 : 0 ∉ (if recMatches a requestId then [0] else [])
          ++ (matchingIndices l requestId).map Nat.succ := by simp [hm]
      rw [if_neg h0, if_neg hm]

lemma matchingIndices_length (requestId : String) :
    ∀ store : List Record,
      (matchingIndices store requestId).length
        = store.countP (fun r => recMatches r requestId) := by
  intro store
  induction store with
  | nil => rfl
  | cons a l ih =>
    rw [matchingIndices_cons, List.length_append, List.length_map, ih,
      List.countP_cons]
    by_cases hm : recMatches a requestId <;> simp [hm]
    omega

lemma approveEndpoint_char (store : List Record) (requestId : String)
    (approvedBy approvalDate signature : Value)
    (h : ∃ r ∈ store, recMatches r requestId = true) :
    approveEndpoint store requestId approvedBy approvalDate signature
      = (store.map (fun r => if recMatches r requestId
            then stampApprove approvedBy approvalDate signature r else r),
         Resp.ok (store.countP (fun r => recMatches r requestId))) := by
  simp only [approveEndpoint]
  have hlen := matchingIndices_length requestId store
  have hpos : 0 < store.countP (fun r => recMatches r requestId) :=
    List.countP_pos_iff.mpr h
  rw [hlen, if_neg (by omega), updateAtIndices_eq_map]

lemma rejectEndpoint_char (store : List Record) (requestId : String)
    (rejectionReason rejectionDate : Value)
    (h : ∃ r ∈ store, recMatches r requestId = true) :
    rejectEndpoint store requestId rejectionReason rejectionDate
      = (store.map (fun r => if recMatches r requestId
            then stampReject rejectionReason rejectionDate r else r),
         Resp.ok (store.countP (fun r => recMatches r requestId))) := by
  simp only [rejectEndpoint]
  have hlen := matchingIndices_length requestId store
  have hpos : 0 < store.countP (fun r => recMatches r requestId) :=
    List.countP_pos_iff.mpr h
  rw [hlen, if_neg (by omega), updateAtIndices_eq_map]

lemma approveEndpoint_notFound (store : List Record) (requestId : String)
    (approvedBy approvalDate signature : Value)
    (h : ∀ r ∈ store, recMatches r requestId = false) :
    approveEndpoint store requestId approvedBy approvalDate signature
      = (store, Resp.notFound) := by
  simp only [approveEndpoint]
  have hlen := matchingIndices_length requestId store
  have hzero : store.countP (fun r => recMatches r requestId) = 0 :=
    List.countP_eq_zero.mpr (fun r hr => by simp [h r hr])
  rw [hlen, if_pos hzero]

lemma rejectEndpoint_notFound (store : List Record) (requestId : String)
    (rejectionReason rejectionDate : Value)
    (h : ∀ r ∈ store, recMatches r requestId = false) :
    rejectEndpoint store requestId rejectionReason rejectionDate
      = (store, Resp.notFound) := by
  simp only [rejectEndpoint]
  have hlen := matchingIndices_length requestId store
  have hzero : store.countP (fun r => recMatches r requestId) = 0 :=
    List.countP_eq_zero.mpr (fun r hr => by simp [h r hr])
  rw [hlen, if_pos hzero]

lemma deleteEndpoint_notFound (store : List Record) (identifier : String)
    (h : ∀ r ∈ store, recMatches r identifier = false) :
    deleteEndpoint store identifier = (store, Resp.notFound) := by
  simp only [deleteEndpoint]
  have hf : store.filter (fun item => !(recMatches item identifier)) = store :=
    List.filter_eq_self.mpr (fun r hr => by simp [h r hr])
  rw [hf, Nat.sub_self, if_pos rfl]

/-! Characterization of the pending-view grouping. -/

lemma lookup_append (k : String) (l1 l2 : List (String × Record)) :
    List.lookup k (l1 ++ l2)
      = if (List.lookup k l1).isSome then List.lookup k l1 else List.lookup k l2 := by
  induction l1 with
  | nil => simp
  | cons a l1 ih =>
    rw [List.cons_append]
    by_cases hk : k == a.1
    · simp [List.lookup, hk]
    · simp only [List.lookup, hk]
      simp only [Bool.false_eq_true, if_false] at *
      exact ih

lemma lookup_eq_none_iff (k : String) (l : List (String × Record)) :
    List.lookup k l = none ↔ ∀ p ∈ l, p.1 ≠ k := by
  induction l with
  | nil => simp
  | cons a l ih =>
    by_cases hk : k == a.1
    · have : k = a.1 := by simpa using hk
      simp [List.lookup, hk, this]
    · have hne : a.1 ≠ k := by
        intro hcontra
        exact hk (by simp [hcontra])
      simp [List.lookup, hk, ih, hne]

lemma pendingGroupsAux_lookup (k : String) :
    ∀ (data : List Record) (acc : List (String × Record)),
      List.lookup k (pendingGroupsAux acc data)
        = if (List.lookup k acc).isSome then List.lookup k acc
          else data.find? (fun r => statusIsPending r && (groupKeyOpt r == some k)) := by
  intro data
  induction data with
  | nil =>
    intro acc
    cases h : List.lookup k acc <;> simp [pendingGroupsAux, h]
  | cons item rest ih =>
    intro acc
    show List.lookup k (pendingGroupsAux (pendingStep acc item) rest) = _
    by_cases hp : statusIsPending item
    · cases hg : groupKeyOpt item with
      | none =>
        have hstep : pendingStep acc item = acc := by
          simp [pendingStep, hp, hg]
        rw [hstep, ih acc]
        have hpred : (statusIsPending item && (groupKeyOpt item == some k)) = false := by
          simp [hg]
        rw [List.find?_cons, hpred]
      | some g =>
        by_cases hacc : (List.lookup g acc).isSome
        · have hstep : pendingStep acc item = acc := by
            simp [pendingStep, hp, hg, hacc]
          rw [hstep, ih acc]
          by_cases hkg : k = g
          · subst hkg
            have hsome := hacc
            rw [if_pos hsome]
            rw [if_pos hsome]
          · have hpred : (statusIsPending item && (groupKeyOpt item == some k)) = false := by
              simp [hg, hp]
              intro hcontra
              exact absurd hcontra.symm hkg
            rw [List.find?_cons, hpred]
        · have hnone : List.lookup g acc = none := by
            cases h : List.lookup g acc
            · rfl
            · rw [h] at hacc
              simp at hacc
          have hstep : pendingStep acc item = acc ++ [(g, item)] := by
            simp [pendingStep, hp, hg, hnone]
          rw [hstep, ih (acc ++ [(g, item)])]
          by_cases hkg : k = g
          · subst hkg
            have hlk : List.lookup k (acc ++ [(k, item)]) = some item := by
              rw [lookup_append, hnone]
              simp [List.lookup]
            rw [hlk]
            simp only [Option.isSome_some, if_true]
            rw [hnone]
            simp only [Option.isSome_none, Bool.false_eq_true, if_false]
            have hpred : (statusIsPending item && (groupKeyOpt item == some k)) = true := by
              simp [hp, hg]
            rw [List.find?_cons, hpred]
          · have hlk : List.lookup k (acc ++ [(g, item)]) = List.lookup k acc := by
              rw [lookup_append]
              have hbeq : (k == g) = false := by simpa using hkg
              have hsing : List.lookup k [(g, item)] = none := by
                simp [List.lookup, hbeq]
              cases h : List.lookup k acc <;> simp [h, hsing]
            rw [hlk]
            have hpred : (statusIsPending item && (groupKeyOpt item == some k)) = false := by
              simp [hg, hp]
              intro hcontra
              exact absurd hcontra.symm hkg
            rw [List.find?_cons, hpred]
    · have hstep : pendingStep acc item = acc := by
        simp [pendingStep, hp]
      rw [hstep, ih acc]
      have hpred : (statusIsPending item && (groupKeyOpt item == some k)) = false := by
        simp [hp]
      rw [List.find?_cons, hpred]

lemma pendingGroupsAux_keys_nodup :
    ∀ (data : List Record) (acc : List (String × Record)),
      (acc.map Prod.fst).Nodup → ((pendingGroupsAux acc data).map Prod.fst).Nodup := by
  intro data
  induction data with
  | nil => intro acc h; exact h
  | cons item rest ih =>
    intro acc hacc
    show ((pendingGroupsAux (pendingStep acc item) rest).map Prod.fst).Nodup
    apply ih
    unfold pendingStep
    by_cases hp : statusIsPending item
    · rw [if_pos hp]
      cases hg : groupKeyOpt item with
      | none => exact hacc
      | some g =>
        by_cases hacc2 : (List.lookup g acc).isSome
        · simp only [hacc2, if_true]
          exact hacc
        · have hnone : List.lookup g acc = none := by
            cases h : List.lookup g acc
            · rfl
            · rw [h] at hacc2
              simp at hacc2
          simp only [hacc2, Bool.false_eq_true, if_false]
          have hnotin : g ∉ acc.map Prod.fst := by
            intro hin
            obtain ⟨p, hp2, hpe⟩ := List.mem_map.mp hin
            exact (lookup_eq_none_iff g acc).mp hnone p hp2 hpe
          rw [List.map_append]
          simp [List.nodup_append, hacc, hnotin]
    · rw [if_neg hp]
      exact hacc

lemma statusIsPending_canonical (r : Record)
    (h : r.status = Value.vnone ∨ r.status = Value.str "Pending" ∨
      r.status = Value.str "Approved" ∨ r.status = Value.str "Rejected") :
    statusIsPending r = (r.status == Value.str "Pending") := by
  unfold statusIsPending
  rcases h with h | h | h | h <;> rw [h] <;> rfl

lemma find?_congr_mem (p q : Record → Bool) :
    ∀ l : List Record, (∀ r ∈ l, p r = q r) → l.find? p = l.find? q := by
  intro l
  induction l with
  | nil => intro _; rfl
  | cons a l ih =>
    intro h
    rw [List.find?_cons, List.find?_cons, h a (List.mem_cons_self a l),
      ih (fun r hr => h r (List.mem_cons_of_mem a hr))]

lemma specMaxSuffix_eq (data : List Record) : specMaxSuffix data = maxSuffix data := by
  induction data with
  | nil => rfl
  | cons r l ih =>
    have hspec : specMaxSuffix (r :: l)
        = max (match r.componentId with
                | Value.vnone => 0
                | v => (findCmpNum v.toStr.data).getD 0) (specMaxSuffix l) := by
      unfold specMaxSuffix
      rw [List.map_cons, List.foldl_cons, foldl_max_shift, Nat.zero_max]
    have hcode : maxSuffix (r :: l)
        = max (if r.componentId.truthy then idNumOf r else 0) (maxSuffix l) := by
      unfold maxSuffix existingIdNums
      rw [List.filter_cons]
      by_cases ht : r.componentId.truthy
      · rw [if_pos ht, if_pos ht, List.map_cons, List.foldl_cons, foldl_max_shift,
          Nat.zero_max]
      · rw [if_neg ht, if_neg ht, Nat.zero_max]
    rw [hspec, hcode, ih]
    congr 1
    cases hcid : r.componentId with
    | vnone => simp [Value.truthy]
    | str s =>
      by_cases hs : s = ""
      · subst hs
        simp [Value.truthy]
        rfl
      · have ht : (Value.str s).truthy = true := by simp [Value.truthy, hs]
        simp only [ht, if_true]
        unfold idNumOf
        rw [hcid]
    | num n =>
      by_cases hn : n = 0
      · subst hn
        simp [Value.truthy]
        decide
      · have ht : (Value.num n).truthy = true := by simp [Value.truthy, hn]
        simp only [ht, if_true]
        unfold idNumOf
        rw [hcid]

/-- C1 counterexample: a file writer that silently truncates every sheet to
zero rows makes the read-back count (0) diverge from the submitted count (1),
yet `saveToExcelSync` still reports success — the re-load is only logged,
never compared. -/
theorem saveToExcelSync_ignores_count_mismatch :
    saveToExcelSync truncatingRoundTrip [({} : Record)] = true ∧
    ((truncatingRoundTrip [({} : Record)]).getD []).length
      ≠ ([({} : Record)] : List Record).length := by
  constructor
  · rfl
  · decide

/-- C1 (amended): `saveToExcelSync` re-loads the file after writing but draws
no conclusion from the read-back: it returns success exactly when the write
and immediate re-load complete without an exception, regardless of whether
the read-back record count matches the input count. -/
theorem saveToExcelSync_success_iff_no_exception
    (fileRoundTrip : List Record → Option (List Record)) (data : List Record) :
    saveToExcelSync fileRoundTrip data = (fileRoundTrip data).isSome := by
  unfold saveToExcelSync
  cases fileRoundTrip data <;> rfl

/-- C2 counterexample: submitting one item mints CMP-001; deleting it and
submitting again mints CMP-001 a second time, so an identifier of a removed
record is reassigned to a later-created record. -/
theorem componentId_reused_after_delete :
    (runOps [] ceReuseOps).2 = ["CMP-001", "CMP-001"] ∧
    ¬ (runOps [] ceReuseOps).2.Nodup := by
  constructor
  · rfl
  · decide

/-- C2 (amended): a freshly minted `Component ID` never equals the
`Component ID` of any record present in the collection it is generated from;
uniqueness holds only against the live collection, so identifiers of records
removed by delete or update can be reassigned by later operations. -/
theorem generateComponentId_fresh (data : List Record) (r : Record) (h : r ∈ data) :
    r.componentId ≠ Value.str (generateComponentId data) := by
  intro heq
  have htr : r.componentId.truthy = true := by
    rw [heq]
    exact generateComponentId_truthy data
  have hle : idNumOf r ≤ maxSuffix data := le_maxSuffix_of_mem h htr
  have hid : idNumOf r = maxSuffix data + 1 := by
    unfold idNumOf
    rw [heq]
    exact cmpSuffix_generateComponentId data
  omega

/-- Witness for the amended C2 theorem at a concrete store. -/
theorem generateComponentId_fresh_witness :
    wRec1.componentId ≠ Value.str (generateComponentId wNoMatchStore) :=
  generateComponentId_fresh wNoMatchStore wRec1 (by decide)

/-- C3: an update first drops every record matching the identifier, then
appends exactly one new record per submitted line item, and the new numeric
suffixes continue the complement collection's maximum one at a time (for both
the issue-form and the storage-form branch); the complement retains no record
matching the identifier. -/
theorem update_renumbers_from_complement (store : List Record) (identifier : String)
    (issueNo storageNo : Value) (components : List Payload)
    (_h : ∃ r ∈ store, recMatches r identifier = true) :
    (updateIssue store identifier issueNo components).1
        = store.filter (fun item => !(recMatches item identifier))
          ++ (updateIssue store identifier issueNo components).2 ∧
    (updateIssue store identifier issueNo components).2.length = components.length ∧
    (updateIssue store identifier issueNo components).2.map idNumOf
        = (List.range components.length).map
            (fun j => maxSuffix (store.filter (fun item => !(recMatches item identifier)))
              + 1 + j) ∧
    (updateStorage store identifier storageNo components).1
        = store.filter (fun item => !(recMatches item identifier))
          ++ (updateStorage store identifier storageNo components).2 ∧
    (updateStorage store identifier storageNo components).2.length = components.length ∧
    (updateStorage store identifier storageNo components).2.map idNumOf
        = (List.range components.length).map
            (fun j => maxSuffix (store.filter (fun item => !(recMatches item identifier)))
              + 1 + j) ∧
    (∀ r ∈ store.filter (fun item => !(recMatches item identifier)),
      recMatches r identifier = false) := by
  obtain ⟨newsI, hI1, hI2, hI3, _⟩ :=
    buildItems_spec (fun cid p => mkIssueRec cid issueNo p) (fun _ _ => rfl)
      (store.filter (fun item => !(recMatches item identifier))) components []
  obtain ⟨newsS, hS1, hS2, hS3, _⟩ :=
    buildItems_spec (fun cid p => mkStorageRec cid storageNo p) (fun _ _ => rfl)
      (store.filter (fun item => !(recMatches item identifier))) components []
  rw [List.nil_append] at hI1 hS1
  simp only [List.append_nil] at hI3 hS3
  have hIdef : updateIssue store identifier issueNo components
      = (store.filter (fun item => !(recMatches item identifier)) ++ newsI, newsI) := by
    simp only [updateIssue, updateCore]
    rw [hI1]
  have hSdef : updateStorage store identifier storageNo components
      = (store.filter (fun item => !(recMatches item identifier)) ++ newsS, newsS) := by
    simp only [updateStorage, updateCore]
    rw [hS1]
  refine ⟨?_, ?_, ?_, ?_, ?_, ?_, ?_⟩
  · rw [hIdef]
  · rw [hIdef]
    exact hI2
  · rw [hIdef]
    exact hI3
  · rw [hSdef]
  · rw [hSdef]
    exact hS2
  · rw [hSdef]
    exact hS3
  · intro r hr
    have := List.mem_filter.mp hr
    simpa using this.2

/-- Witness for C3: updating ISS-1 (which owns CMP-002 and CMP-003) in a
store whose complement maximum is 1 renumbers the three-item batch as
suffixes 2, 3, 4 — continuing the complement, not the pre-update maximum. -/
theorem update_renumbers_witness :
    (∃ r ∈ wUpdateStore, recMatches r "ISS-1" = true) ∧
    (updateIssue wUpdateStore "ISS-1" (Value.str "ISS-1") [[], [], []]).2.map idNumOf
      = [2, 3, 4] := by
  refine ⟨by decide, ?_⟩
  have h := update_renumbers_from_complement wUpdateStore "ISS-1" (Value.str "ISS-1")
    (Value.str "X") [[], [], []] (by decide)
  rw [h.2.2.1]
  decide

/-- C4: for any sequence of submit operations (issue or storage, any batch
sizes) run against the evolving collection, the minted `Component ID`s are
pairwise distinct, and their numeric suffixes — each generated from the
prospective collection with the in-batch items already appended — are
strictly increasing across the whole run (hence within every batch). -/
theorem submit_sequence_ids_distinct (data : List Record) (ops : List Op)
    (h : ∀ op ∈ ops, op.isSubmit = true) :
    (runOps data ops).2.Pairwise (fun a b => a ≠ b) ∧
    ((runOps data ops).2.map cmpSuffix).Chain' (· < ·) := by
  obtain ⟨t, hmint, _⟩ := runOps_submits ops h data
  have hpl : ((runOps data ops).2.map cmpSuffix).Pairwise (· < ·) := by
    rw [hmint]
    exact List.pairwise_map.mpr
      ((List.pairwise_lt_range t).imp (fun hab => by omega))
  constructor
  · have hsuf := List.pairwise_map.mp hpl
    exact hsuf.imp (fun hab heq => by rw [heq] at hab; omega)
  · exact hpl.chain'

/-- Witness for C4 at a concrete two-submit run. -/
theorem submit_sequence_ids_distinct_witness :
    (∀ op ∈ wSubmitOps, op.isSubmit = true) ∧
    (runOps [] wSubmitOps).2.Pairwise (fun a b => a ≠ b) :=
  ⟨by decide, (submit_sequence_ids_distinct [] wSubmitOps (by decide)).1⟩

/-- C5: when no record's stringified `Issue No`, `Storage No` or
`Component ID` equals the identifier, approve, reject and delete all report a
not-found outcome and return the persisted collection unchanged — the save
branch is never reached and no record field is modified. -/
theorem notFound_leaves_store_unchanged (store : List Record) (identifier : String)
    (approvedBy approvalDate signature rejectionReason rejectionDate : Value)
    (h : ∀ r ∈ store, recMatches r identifier = false) :
    approveEndpoint store identifier approvedBy approvalDate signature
        = (store, Resp.notFound) ∧
    rejectEndpoint store identifier rejectionReason rejectionDate
        = (store, Resp.notFound) ∧
    deleteEndpoint store identifier = (store, Resp.notFound) :=
  ⟨approveEndpoint_notFound store identifier approvedBy approvalDate signature h,
   rejectEndpoint_notFound store identifier rejectionReason rejectionDate h,
   deleteEndpoint_notFound store identifier h⟩

/-- Witness for C5 at a concrete store and an identifier matching nothing. -/
theorem notFound_leaves_store_unchanged_witness :
    (∀ r ∈ wNoMatchStore, recMatches r "ZZZ" = false) ∧
    (approveEndpoint wNoMatchStore "ZZZ" (Value.str "adm") (Value.str "2026-01-01")
        (Value.str "sig") = (wNoMatchStore, Resp.notFound) ∧
     rejectEndpoint wNoMatchStore "ZZZ" (Value.str "why") (Value.str "2026-01-01")
        = (wNoMatchStore, Resp.notFound) ∧
     deleteEndpoint wNoMatchStore "ZZZ" = (wNoMatchStore, Resp.notFound)) :=
  ⟨by decide,
   notFound_leaves_store_unchanged wNoMatchStore "ZZZ" (Value.str "adm")
     (Value.str "2026-01-01") (Value.str "sig") (Value.str "why")
     (Value.str "2026-01-01") (by decide)⟩

/-- C6 counterexample: a record whose `Issue No` is the number 0 stringifies
to "0" and is neither absent nor the empty string, so the claim's matcher
accepts it against identifier "0", but the implementation's truthiness guard
drops the field and the record does not match. -/
theorem matcher_zero_field_counterexample :
    claimMatches ceZeroRec "0" = true ∧
    ceZeroRec.issueNo.toStr = "0" ∧
    recMatches ceZeroRec "0" = false := by
  decide

/-- C6 (amended): a record matches exactly when one of its `Issue No`,
`Storage No` or `Component ID` fields is truthy — not absent, not the empty
string and not the number 0 — and its stringification is string-equal to the
identifier (exact, case-sensitive, no trimming). -/
theorem recMatches_characterization (item : Record) (identifier : String) :
    recMatches item identifier = true ↔
      ((item.issueNo.truthy = true ∧ item.issueNo.toStr = identifier) ∨
       (item.storageNo.truthy = true ∧ item.storageNo.toStr = identifier) ∨
       (item.componentId.truthy = true ∧ item.componentId.toStr = identifier)) := by
  unfold recMatches
  by_cases h1 : item.issueNo.truthy <;>
    by_cases h2 : item.storageNo.truthy <;>
      by_cases h3 : item.componentId.truthy <;>
        simp [h1, h2, h3, or_assoc]

/-- C7: over any collection whose `Status` cells are canonical data-model
values, the pending view has no duplicate group keys, and the record stored
under each key is exactly the first `Pending` record of the collection whose
group key (`Issue No` when truthy, else `Storage No`) is that key; records
with neither key or another status never contribute.  On the three-record
example of the specification the view holds exactly one entry, keyed "A",
carrying the first record, and no entry for "B". -/
theorem pendingGroups_spec :
    (∀ data : List Record, canonicalStatuses data →
      ((pendingGroups data).map Prod.fst).Nodup ∧
      ∀ k : String, List.lookup k (pendingGroups data)
          = data.find? (fun r => (r.status == Value.str "Pending")
              && (groupKeyOpt r == some k))) ∧
    pendingGroups exampleData = [("A", exRecA1)] := by
  constructor
  · intro data hc
    constructor
    · exact pendingGroupsAux_keys_nodup data [] (by simp)
    · intro k
      have h1 := pendingGroupsAux_lookup k data []
      simp only [List.lookup, Option.isSome_none, Bool.false_eq_true, if_false] at h1
      rw [pendingGroups, h1]
      exact find?_congr_mem _ _ data
        (fun r hr => by rw [statusIsPending_canonical r (hc r hr)])
  · rfl

/-- Witness for C7 at the specification's three-record example. -/
theorem pendingGroups_spec_witness :
    canonicalStatuses exampleData ∧
    List.lookup "A" (pendingGroups exampleData)
      = exampleData.find? (fun r => (r.status == Value.str "Pending")
          && (groupKeyOpt r == some "A")) :=
  ⟨by unfold canonicalStatuses; decide,
   (pendingGroups_spec.1 exampleData (by unfold canonicalStatuses; decide)).2 "A"⟩

/-- C8: the generator returns `CMP-` followed by the successor of the
specification's maximum suffix (each existing `Component ID` contributing its
`CMP-<digits>` capture, non-matching or absent ones contributing 0),
zero-padded to at least three digits; the empty collection yields CMP-001,
and there is no width cap — once the maximum reaches 999 the numeral is at
least four digits long and the padding no longer applies. -/
theorem generateComponentId_spec :
    (∀ data : List Record, generateComponentId data
        = "CMP-" ++ String.mk (padStart3 (natToDecimal (specMaxSuffix data + 1)))) ∧
    generateComponentId [] = "CMP-001" ∧
    (∀ data : List Record, 999 ≤ specMaxSuffix data →
      (generateComponentId data).data.length
          = 4 + (natToDecimal (specMaxSuffix data + 1)).length ∧
      8 ≤ (generateComponentId data).data.length) := by
  refine ⟨?_, by rfl, ?_⟩
  · intro data
    rw [specMaxSuffix_eq data]
    rfl
  · intro data h999
    rw [specMaxSuffix_eq data] at h999 ⊢
    have hlen4 : 4 ≤ (natToDecimal (maxSuffix data + 1)).length := by
      have : (10 : Nat) ^ 3 ≤ maxSuffix data + 1 := by
        norm_num
        omega
      have := natToDecimal_len_ge (maxSuffix data + 1) 3 this
      omega
    have hdata : (generateComponentId data).data
        = 'C' :: 'M' :: 'P' :: '-' :: padStart3 (natToDecimal (maxSuffix data + 1)) := rfl
    rw [hdata]
    simp only [List.length_cons, padStart3_length]
    rw [Nat.max_eq_right (by omega)]
    omega

/-- Witness for C8 at a store whose maximal suffix is 1200. -/
theorem generateComponentId_spec_witness :
    999 ≤ specMaxSuffix wWideStore ∧
    ((generateComponentId wWideStore).data.length
        = 4 + (natToDecimal (specMaxSuffix wWideStore + 1)).length ∧
     8 ≤ (generateComponentId wWideStore).data.length) :=
  ⟨by decide, generateComponentId_spec.2.2 wWideStore (by decide)⟩

/-- C9: whenever the identifier matches at least one record, approve and
reject rewrite every matched record — setting `Status` and re-stamping the
corresponding audit fields — via a transformation that never inspects the
record's current `Status`, so an already-Approved or already-Rejected record
is overwritten with no guard. -/
theorem approve_reject_no_status_guard (store : List Record) (requestId : String)
    (approvedBy approvalDate signature rejectionReason rejectionDate : Value)
    (h : ∃ r ∈ store, recMatches r requestId = true) :
    approveEndpoint store requestId approvedBy approvalDate signature
      = (store.map (fun r => if recMatches r requestId
            then stampApprove approvedBy approvalDate signature r else r),
         Resp.ok (store.countP (fun r => recMatches r requestId))) ∧
    rejectEndpoint store requestId rejectionReason rejectionDate
      = (store.map (fun r => if recMatches r requestId
            then stampReject rejectionReason rejectionDate r else r),
         Resp.ok (store.countP (fun r => recMatches r requestId))) :=
  ⟨approveEndpoint_char store requestId approvedBy approvalDate signature h,
   rejectEndpoint_char store requestId rejectionReason rejectionDate h⟩

/-- Witness for C9: rejecting a transaction whose record is already Approved
overwrites the terminal status with Rejected. -/
theorem approve_reject_no_status_guard_witness :
    (∃ r ∈ wTerminalStore, recMatches r "ISS-1" = true) ∧
    rejectEndpoint wTerminalStore "ISS-1" (Value.str "why") (Value.str "2026-02-02")
      = (wTerminalStore.map (fun r => if recMatches r "ISS-1"
            then stampReject (Value.str "why") (Value.str "2026-02-02") r else r),
         Resp.ok (wTerminalStore.countP (fun r => recMatches r "ISS-1"))) ∧
    ((rejectEndpoint wTerminalStore "ISS-1" (Value.str "why")
        (Value.str "2026-02-02")).1.getD 0 default).status = Value.str "Rejected" :=
  ⟨by decide,
   (approve_reject_no_status_guard wTerminalStore "ISS-1" (Value.str "a")
     (Value.str "d") (Value.str "s") (Value.str "why") (Value.str "2026-02-02")
     (by decide)).2,
   by decide⟩

/-- C10: when at least one record matches, approve and reject preserve the
collection's length and order; every non-matching record re-appears
unchanged, and every matching record re-appears with only `Status` and the
operation's own audit fields rewritten — its identifiers, group keys, the
other operation's audit fields and all carried-through attributes are
untouched. -/
theorem approve_reject_frame (store : List Record) (requestId : String)
    (approvedBy approvalDate signature rejectionReason rejectionDate : Value)
    (h : ∃ r ∈ store, recMatches r requestId = true) :
    (approveEndpoint store requestId approvedBy approvalDate signature).1.length
        = store.length ∧
    (rejectEndpoint store requestId rejectionReason rejectionDate).1.length
        = store.length ∧
    (∀ i : Nat, ∀ r : Record, store[i]? = some r → recMatches r requestId = false →
      (approveEndpoint store requestId approvedBy approvalDate signature).1[i]?
          = some r ∧
      (rejectEndpoint store requestId rejectionReason rejectionDate).1[i]? = some r) ∧
    (∀ i : Nat, ∀ r : Record, store[i]? = some r → recMatches r requestId = true →
      (∃ ra : Record,
        (approveEndpoint store requestId approvedBy approvalDate signature).1[i]?
            = some ra ∧
        ra.status = Value.str "Approved" ∧ ra.componentId = r.componentId ∧
        ra.issueNo = r.issueNo ∧ ra.storageNo = r.storageNo ∧
        ra.rejectionReason = r.rejectionReason ∧ ra.rejectionDate = r.rejectionDate ∧
        ra.others = r.others) ∧
      (∃ rb : Record,
        (rejectEndpoint store requestId rejectionReason rejectionDate).1[i]?
            = some rb ∧
        rb.status = Value.str "Rejected" ∧ rb.componentId = r.componentId ∧
        rb.issueNo = r.issueNo ∧ rb.storageNo = r.storageNo ∧
        rb.approvedBy = r.approvedBy ∧ rb.approvalDate = r.approvalDate ∧
        rb.approvalSignature = r.approvalSignature ∧ rb.others = r.others)) := by
  have ha := approveEndpoint_char store requestId approvedBy approvalDate signature h
  have hr := rejectEndpoint_char store requestId rejectionReason rejectionDate h
  rw [ha, hr]
  refine ⟨by simp, by simp, ?_, ?_⟩
  · intro i r hir hfalse
    constructor
    · rw [List.getElem?_map, hir]
      simp [hfalse]
    · rw [List.getElem?_map, hir]
      simp [hfalse]
  · intro i r hir htrue
    constructor
    · refine ⟨stampApprove approvedBy approvalDate signature r, ?_, ?_⟩
      · rw [List.getElem?_map, hir]
        simp [htrue]
      · exact ⟨rfl, rfl, rfl, rfl, rfl, rfl, rfl⟩
    · refine ⟨stampReject rejectionReason rejectionDate r, ?_, ?_⟩
      · rw [List.getElem?_map, hir]
        simp [htrue]
      · exact ⟨rfl, rfl, rfl, rfl, rfl, rfl, rfl, rfl⟩

/-- Witness for C10 at a concrete store with one matching record. -/
theorem approve_reject_frame_witness :
    (∃ r ∈ wTerminalStore, recMatches r "ISS-2" = true) ∧
    (approveEndpoint wTerminalStore "ISS-2" (Value.str "adm") (Value.str "2026-03-03")
        (Value.str "sig")).1.length = wTerminalStore.length :=
  ⟨by decide,
   (approve_reject_frame wTerminalStore "ISS-2" (Value.str "adm")
     (Value.str "2026-03-03") (Value.str "sig") (Value.str "why")
     (Value.str "2026-03-03") (by decide)).1⟩

end Inventory
